import Mathlib

/-!
Verification development for the auth_service repository.

The definitions below are a shallow embedding of the Go sources:
  - bcrypt hashing (golang.org/x/crypto/bcrypt) as a salted, content-comparable hash,
  - the Postgres store adapter (internal/storage/postgres),
  - the Redis store adapter (internal/storage/redis),
  - the JWT codecs (internal/lib/verification and internal/auth/2fa, on top of
    github.com/golang-jwt/jwt/v5 semantics),
  - the auth core (internal/auth/auth.go),
  - the magic_links table trigger (migrations/init_magic-links).
Machine time is modelled as Int unix seconds; database state is explicit and
threaded through every operation.
-/

set_option maxHeartbeats 1000000

namespace AuthService

/-- Model of a bcrypt hash value: bcrypt.GenerateFromPassword salts its input, so
hashing the same raw value twice yields structurally different hashes, while
bcrypt.CompareHashAndPassword succeeds exactly when the hashed content equals
the presented raw value. -/
structure BcryptHash where
  salt : Nat
  content : String
deriving DecidableEq, Repr

def bcryptGenerateFromPassword (raw : String) (salt : Nat) : BcryptHash :=
  ⟨salt, raw⟩

/-- bcrypt.CompareHashAndPassword(h, raw) == nil -/
def bcryptCompareOK (h : BcryptHash) (raw : String) : Bool :=
  h.content == raw

/-- Row of the users table. -/
structure UserRow where
  id : Int
  email : String
  username : String
  passHash : BcryptHash
  isVerified : Bool
deriving DecidableEq, Repr

/-- Row of the apps table. -/
structure AppRow where
  id : Int
  name : String
  secret : String
deriving DecidableEq, Repr

/-- Row of the refresh_tokens table (the columns the adapter reads). -/
structure RefreshTokenRow where
  tokenHash : BcryptHash
  userID : Int
  appID : Int
  expiresAt : Int
deriving DecidableEq, Repr

/-- Row of the magic_links table. -/
structure MagicLinkRow where
  id : Int
  userID : Int
  appID : Int
  tokenHash : String
  sessionID : String
  ipAddress : String
  userAgent : String
  used : Bool
  usedAt : Option Int
  expiresAt : Int
  createdAt : Int
deriving DecidableEq, Repr

/-- The durable (Postgres) database state. -/
structure DB where
  users : List UserRow
  apps : List AppRow
  refreshTokens : List RefreshTokenRow
  magicLinks : List MagicLinkRow
deriving DecidableEq, Repr

/-- Errors surfaced by the pgx driver itself. -/
inductive PgDriverError
  | noRows
  | uniqueViolation
  | ioFailure (msg : String)
deriving DecidableEq, Repr

/-- Errors returned by the store adapter (package storage sentinels plus the
wrapped driver errors the adapter passes through). -/
inductive StoreError
  | userNotFound
  | appNotFound
  | refreshTokenNotFound
  | userExists
  | magicLinkNotFound (opName : String)
  | magicLinkUsedOrMissing (opName : String)
  | driver (e : PgDriverError)
deriving DecidableEq, Repr

/-- SELECT ... FROM users WHERE email = $1 via QueryRow: pgx.ErrNoRows when no
row matches. -/
def queryRowUserByEmail (db : DB) (email : String) : Except PgDriverError UserRow :=
  match db.users.find? (fun u => u.email == email) with
  | some u => .ok u
  | none => .error .noRows

/-- SELECT ... FROM users WHERE id = $1 via QueryRow. -/
def queryRowUserByID (db : DB) (id : Int) : Except PgDriverError UserRow :=
  match db.users.find? (fun u => u.id == id) with
  | some u => .ok u
  | none => .error .noRows

/-- SELECT ... FROM apps WHERE id = $1 via QueryRow. -/
def queryRowApp (db : DB) (appID : Int) : Except PgDriverError AppRow :=
  match db.apps.find? (fun a => a.id == appID) with
  | some a => .ok a
  | none => .error .noRows

/-- SELECT ... FROM magic_links WHERE token_hash = $1 via QueryRow. -/
def queryRowMagicLinkByHash (tbl : List MagicLinkRow) (tokenHash : String) :
    Except PgDriverError MagicLinkRow :=
  match tbl.find? (fun r => r.tokenHash == tokenHash) with
  | some r => .ok r
  | none => .error .noRows

/-- PostgresRepo.User: translates pgx.ErrNoRows into storage.ErrUserNotFound. -/
def pgUser (db : DB) (email : String) : Except StoreError UserRow :=
  match queryRowUserByEmail db email with
  | .ok u => .ok u
  | .error .noRows => .error .userNotFound
  | .error e => .error (.driver e)

/-- PostgresRepo.UserByID: translates pgx.ErrNoRows into storage.ErrUserNotFound. -/
def pgUserByID (db : DB) (id : Int) : Except StoreError UserRow :=
  match queryRowUserByID db id with
  | .ok u => .ok u
  | .error .noRows => .error .userNotFound
  | .error e => .error (.driver e)

/-- PostgresRepo.CheckIfUserVerified: translates pgx.ErrNoRows into
storage.ErrUserNotFound. -/
def pgCheckIfUserVerified (db : DB) (email : String) : Except StoreError (Int × Bool) :=
  match queryRowUserByEmail db email with
  | .ok u => .ok (u.id, u.isVerified)
  | .error .noRows => .error .userNotFound
  | .error e => .error (.driver e)

/-- PostgresRepo.App: translates pgx.ErrNoRows into storage.ErrAppNotFound. -/
def pgApp (db : DB) (appID : Int) : Except StoreError AppRow :=
  match queryRowApp db appID with
  | .ok a => .ok a
  | .error .noRows => .error .appNotFound
  | .error e => .error (.driver e)

/-- PostgresRepo.MagicLinkByTokenHash: translates pgx.ErrNoRows into the
distinguished "magic link not found" error of the adapter. -/
def pgMagicLinkByTokenHash (tbl : List MagicLinkRow) (tokenHash : String) :
    Except StoreError MagicLinkRow :=
  match queryRowMagicLinkByHash tbl tokenHash with
  | .ok r => .ok r
  | .error .noRows => .error (.magicLinkNotFound "storage.postgres.MagicLinkByTokenHash")
  | .error e => .error (.driver e)

/-- SELECT ... FROM refresh_tokens WHERE expires_at > NOW(). -/
def queryUnexpiredRefreshTokens (db : DB) (now : Int) : List RefreshTokenRow :=
  db.refreshTokens.filter (fun r => decide (now < r.expiresAt))

/-- PostgresRepo.GetRefreshToken: scans unexpired rows and returns the first row
whose bcrypt hash compares equal to the raw token; returns
storage.ErrRefreshTokenNotFound when none matches. -/
def pgGetRefreshToken (db : DB) (now : Int) (rawToken : String) :
    Except StoreError RefreshTokenRow :=
  match (queryUnexpiredRefreshTokens db now).find? (fun r => bcryptCompareOK r.tokenHash rawToken) with
  | some r => .ok r
  | none => .error .refreshTokenNotFound

/-- INSERT INTO users ... RETURNING id, raising the unique-constraint violation
SQLSTATE 23505 when an email or username collides. -/
def pgInsertUser (db : DB) (newId : Int) (email username : String) (passHash : BcryptHash) :
    DB × Except PgDriverError Int :=
  if db.users.any (fun u => u.email == email || u.username == username) then
    (db, .error .uniqueViolation)
  else
    (⟨db.users ++ [⟨newId, email, username, passHash, false⟩],
      db.apps, db.refreshTokens, db.magicLinks⟩, .ok newId)

/-- PostgresRepo.SaveUser: runs the INSERT and maps SQLSTATE 23505 to the
storage.ErrUserExists sentinel (no pre-check). -/
def pgSaveUser (db : DB) (newId : Int) (email username : String) (passHash : BcryptHash) :
    DB × Except StoreError Int :=
  match pgInsertUser db newId email username passHash with
  | (db2, .ok id) => (db2, .ok id)
  | (db2, .error .uniqueViolation) => (db2, .error .userExists)
  | (db2, .error e) => (db2, .error (.driver e))

def setVerifiedRow (u : UserRow) : UserRow :=
  ⟨u.id, u.email, u.username, u.passHash, true⟩

/-- PostgresRepo.SetEmailVerified: UPDATE users SET is_verified = TRUE WHERE id = $1,
run via Exec with the affected-row count discarded. -/
def pgSetEmailVerified (db : DB) (userID : Int) : DB × Except StoreError Unit :=
  (⟨db.users.map (fun u => if decide (u.id = userID) then setVerifiedRow u else u),
    db.apps, db.refreshTokens, db.magicLinks⟩, .ok ())

/-- PostgresRepo.SaveRefreshToken: plain INSERT. -/
def pgSaveRefreshToken (db : DB) (userID appID : Int) (tokenHash : BcryptHash)
    (expiresAt : Int) : DB × Except StoreError Unit :=
  (⟨db.users, db.apps, db.refreshTokens ++ [⟨tokenHash, userID, appID, expiresAt⟩],
    db.magicLinks⟩, .ok ())

/-- The UPDATE statement of PostgresRepo.UpdateRefreshToken, scoped to
user_id = $3 AND token_hash = $4, returning the new state together with the
number of affected rows (the CommandTag pgx reports). -/
def pgUpdateRefreshTokenExec (db : DB) (userID : Int) (oldHash newHash : BcryptHash)
    (expiresAt : Int) : DB × Nat :=
  let hit := fun (r : RefreshTokenRow) => decide (r.userID = userID ∧ r.tokenHash = oldHash)
  let updated := db.refreshTokens.map
    (fun r => if hit r then ⟨newHash, r.userID, r.appID, expiresAt⟩ else r)
  (⟨db.users, db.apps, updated, db.magicLinks⟩, (db.refreshTokens.filter hit).length)

/-- PostgresRepo.UpdateRefreshToken: runs the conditional UPDATE via Exec and
discards the affected-row count, so a zero-row update is not an error. -/
def pgUpdateRefreshToken (db : DB) (userID : Int) (oldHash newHash : BcryptHash)
    (expiresAt : Int) : DB × Except StoreError Unit :=
  ((pgUpdateRefreshTokenExec db userID oldHash newHash expiresAt).1, .ok ())

/-- PostgresRepo.DeleteRefreshToken: DELETE FROM refresh_tokens WHERE token_hash = $1. -/
def pgDeleteRefreshToken (db : DB) (tokenHash : BcryptHash) : DB × Except StoreError Unit :=
  (⟨db.users, db.apps,
    db.refreshTokens.filter (fun r => decide (r.tokenHash ≠ tokenHash)),
    db.magicLinks⟩, .ok ())

def markUsedRow (now : Int) (r : MagicLinkRow) : MagicLinkRow :=
  ⟨r.id, r.userID, r.appID, r.tokenHash, r.sessionID, r.ipAddress, r.userAgent,
    true, some now, r.expiresAt, r.createdAt⟩

/-- PostgresRepo.MarkMagicLinkAsUsed: UPDATE magic_links SET used = true,
used_at = NOW() WHERE id = $1 AND used = false; the affected-row count is
checked and a zero-row update is reported as an error. -/
def pgMarkMagicLinkAsUsed (tbl : List MagicLinkRow) (now : Int) (id : Int) :
    List MagicLinkRow × Except StoreError Unit :=
  let hit := fun (r : MagicLinkRow) => decide (r.id = id ∧ r.used = false)
  let updated := tbl.map (fun r => if hit r then markUsedRow now r else r)
  if (tbl.filter hit).length = 0 then
    (updated, .error (.magicLinkUsedOrMissing "storage.postgres.MarkMagicLinkAsUsed"))
  else
    (updated, .ok ())

/-- One Redis key with its value and absolute expiry instant. -/
structure RedisEntry where
  key : String
  value : String
  expiresAt : Int
deriving DecidableEq, Repr

/-- A key is live when some entry for it has not yet expired. -/
def redisKeyLive (st : List RedisEntry) (key : String) (now : Int) : Bool :=
  st.any (fun e => e.key == key && decide (now < e.expiresAt))

/-- Redis SETNX with a TTL: atomically sets the key only when it is absent,
reporting whether the set happened. -/
def redisSetNX (st : List RedisEntry) (key value : String) (now ttl : Int) :
    List RedisEntry × Bool :=
  if redisKeyLive st key now then (st, false)
  else (⟨key, value, now + ttl⟩ :: st, true)

/-- RedisRepo.MarkMagicLinkAsUsed: SETNX on the 2fa:used:(hash) key; true means
the caller consumed the link first, false means it was already used. -/
def redisMarkMagicLinkAsUsed (st : List RedisEntry) (tokenHash : String) (now ttl : Int) :
    List RedisEntry × Bool :=
  redisSetNX st ("2fa:used:" ++ tokenHash) "used" now ttl

/-- JWT signing algorithms relevant here; the HSxxx family is HMAC. -/
inductive SigAlg
  | hs256
  | hs384
  | hs512
  | rs256
  | es256
deriving DecidableEq, Repr

def SigAlg.isHMAC : SigAlg → Bool
  | .hs256 => true
  | .hs384 => true
  | .hs512 => true
  | .rs256 => false
  | .es256 => false

/-- The claim set carried by the tokens this repository mints; a field is none
when the claim is absent from the map (or present with the wrong dynamic type,
which jwt.MapClaims type assertions treat the same way). -/
structure Claims where
  sub : Option Int
  purpose : Option String
  exp : Option Int
  iat : Option Int
  appID : Option Int
  sessionID : Option String
deriving DecidableEq, Repr

/-- A signed compact token: its header algorithm, its claims, and the key it was
actually signed with (signature verification succeeds against exactly that key). -/
structure SignedToken where
  alg : SigAlg
  claims : Claims
  signingKey : String
deriving DecidableEq, Repr

inductive TokenError
  | unexpectedSigningMethod
  | signatureInvalid
  | tokenExpired
  | tokenInvalid
  | invalidPurpose
  | missingExp
  | missingSub
  | missingAppID
  | missingSessionID
deriving DecidableEq, Repr

/-- jwt.ParseWithClaims of golang-jwt v5 with a keyfunc that rejects non-HMAC
methods: it verifies the signature and then runs the default registered-claims
validation, which rejects a present exp that is not strictly in the future but
does not require exp to be present. -/
def jwtParseWithClaims (tok : SignedToken) (secret : String) (now : Int) :
    Except TokenError Claims :=
  if ¬ tok.alg.isHMAC then .error .unexpectedSigningMethod
  else if tok.signingKey ≠ secret then .error .signatureInvalid
  else
    match tok.claims.exp with
    | some e => if e ≤ now then .error .tokenExpired else .ok tok.claims
    | none => .ok tok.claims

/-- verification.ParseVerificationToken: library parse, then purpose must equal
email_verification, then exp must be present and not in the past, then sub must
be present; returns the subject user id. -/
def ParseVerificationToken (tok : SignedToken) (secret : String) (now : Int) :
    Except TokenError Int :=
  match jwtParseWithClaims tok secret now with
  | .error e => .error e
  | .ok claims =>
    match claims.purpose with
    | some p =>
      if p ≠ "email_verification" then .error .invalidPurpose
      else
        match claims.exp with
        | some e =>
          if now > e then .error .tokenExpired
          else
            match claims.sub with
            | some s => .ok s
            | none => .error .missingSub
        | none => .error .missingExp
    | none => .error .invalidPurpose

/-- verification.generateVerificationToken: HS256 token with sub, purpose
email_verification and exp = now + ttl. -/
def generateVerificationToken (userID : Int) (tokenTTL : Int) (secret : String)
    (now : Int) : SignedToken :=
  ⟨.hs256, ⟨some userID, some "email_verification", some (now + tokenTTL), none, none, none⟩,
    secret⟩

/-- Typed claims returned by the 2FA parser. -/
structure TwoFAClaims where
  userID : Int
  appID : Int
  sessionID : String
deriving DecidableEq, Repr

/-- TwoFactorAuthentificator.ParseToken: library parse, then purpose must equal
2fa, then sub, app_id and session_id must be present; there is no check that an
exp claim is present. -/
def twofaParseToken (tok : SignedToken) (secret : String) (now : Int) :
    Except TokenError TwoFAClaims :=
  match jwtParseWithClaims tok secret now with
  | .error e => .error e
  | .ok claims =>
    match claims.purpose with
    | some p =>
      if p ≠ "2fa" then .error .invalidPurpose
      else
        match claims.sub with
        | some uid =>
          match claims.appID with
          | some aid =>
            match claims.sessionID with
            | some sid => .ok ⟨uid, aid, sid⟩
            | none => .error .missingSessionID
          | none => .error .missingAppID
        | none => .error .missingSub
    | none => .error .invalidPurpose

/-- TwoFactorAuthentificator.generateToken: HS256 token with sub, app_id,
session_id, purpose 2fa, iat and exp = now + ttl. -/
def twofaGenerateToken (userID appID : Int) (nowNanos : Int) (now ttl : Int)
    (secret : String) : SignedToken × String :=
  let sessionID := "sess_" ++ toString nowNanos ++ "_" ++ toString userID
  (⟨.hs256,
    ⟨some userID, some "2fa", some (now + ttl), some now, some appID, some sessionID⟩,
    secret⟩, sessionID)

/-- Errors of the auth core (internal/auth/auth.go). -/
inductive AuthError
  | invalidCredentials
  | invalidAppID
  | userExists
  | emailNotVerified
  | storeFailure (e : StoreError)
  | tokenFailure (e : TokenError)
deriving DecidableEq, Repr

/-- jwt.NewToken for access tokens, abstracted to an opaque string built from
the user, the app and the expiry. -/
def jwtNewAccessToken (user : UserRow) (app : AppRow) (now tokenTTL : Int) : String :=
  "access:" ++ toString user.id ++ ":" ++ toString app.id ++ ":" ++ toString (now + tokenTTL)

/-- One execution of Auth.Refresh whose read operations see the snapshot dbRead
and whose conditional UPDATE runs against dbWrite; the Nat component is the
affected-row count of that UPDATE (which the Go code discards). Sequential
execution is the special case dbRead = dbWrite. -/
def refreshAttempt (dbRead dbWrite : DB) (now : Int) (rawToken newRawToken : String)
    (newSalt : Nat) (tokenTTL refreshTTL : Int) :
    DB × Except AuthError (String × String) × Nat :=
  match pgGetRefreshToken dbRead now rawToken with
  | .error _ => (dbWrite, .error .invalidCredentials, 0)
  | .ok rt =>
    if now > rt.expiresAt then (dbWrite, .error .invalidCredentials, 0)
    else
      match pgUserByID dbRead rt.userID with
      | .error _ => (dbWrite, .error .invalidCredentials, 0)
      | .ok user =>
        match pgApp dbRead rt.appID with
        | .error _ => (dbWrite, .error .invalidAppID, 0)
        | .ok app =>
          let newHash := bcryptGenerateFromPassword newRawToken newSalt
          let res := pgUpdateRefreshTokenExec dbWrite rt.userID rt.tokenHash newHash
            (now + refreshTTL)
          (res.1, .ok (jwtNewAccessToken user app now tokenTTL, newRawToken), res.2)

/-- Auth.Refresh: looks up the row by scanning, re-checks expiry, reloads user
and app, mints an access token, and replaces the old hash with the hash of the
fresh raw value via the conditional UPDATE. -/
def Refresh (db : DB) (now : Int) (rawToken newRawToken : String) (newSalt : Nat)
    (tokenTTL refreshTTL : Int) : DB × Except AuthError (String × String) :=
  let r := refreshAttempt db db now rawToken newRawToken newSalt tokenTTL refreshTTL
  (r.1, r.2.1)

/-- Auth.Logout: same lookup-by-hash as Refresh, then deletes the matched row. -/
def Logout (db : DB) (now : Int) (rawToken : String) : DB × Except AuthError Unit :=
  match pgGetRefreshToken db now rawToken with
  | .error _ => (db, .error .invalidCredentials)
  | .ok rt => ((pgDeleteRefreshToken db rt.tokenHash).1, .ok ())

/-- Auth.RegisterNewUser: bcrypt-hashes the password and saves the user,
mapping the storage.ErrUserExists sentinel to the core ErrUserExists. -/
def RegisterNewUser (db : DB) (newId : Int) (email username pass : String) (salt : Nat) :
    DB × Except AuthError Int :=
  let passHash := bcryptGenerateFromPassword pass salt
  match pgSaveUser db newId email username passHash with
  | (db2, .ok id) => (db2, .ok id)
  | (db2, .error .userExists) => (db2, .error .userExists)
  | (db2, .error e) => (db2, .error (.storeFailure e))

/-- Auth.VerifyUser: parses the verification token and flips is_verified for the
subject user id; the UPDATE is issued via Exec and its affected-row count is
never inspected. -/
def VerifyUser (db : DB) (tok : SignedToken) (secret : String) (now : Int) :
    DB × Except AuthError Unit :=
  match ParseVerificationToken tok secret now with
  | .error e => (db, .error (.tokenFailure e))
  | .ok userID => ((pgSetEmailVerified db userID).1, .ok ())

/-- A magic-link row counts as active for a user when it is unused and unexpired. -/
def magicLinkActive (uid : Int) (now : Int) (r : MagicLinkRow) : Bool :=
  decide (r.userID = uid ∧ r.used = false ∧ now < r.expiresAt)

/-- The rows the trigger's SELECT COUNT counts: the user's unused, unexpired rows. -/
def activeRows (tbl : List MagicLinkRow) (uid now : Int) : List MagicLinkRow :=
  tbl.filter (magicLinkActive uid now)

/-- ORDER BY created_at ASC. -/
def createdLE (a b : MagicLinkRow) : Bool :=
  decide (a.createdAt ≤ b.createdAt)

/-- The ids selected by the trigger's subquery: the user's active rows ordered
by created_at ascending, limited to (active_count - 2). -/
def evictedIds (tbl : List MagicLinkRow) (uid now : Int) : List Int :=
  (((activeRows tbl uid now).mergeSort createdLE).take
    ((activeRows tbl uid now).length - 2)).map MagicLinkRow.id

/-- The limit_active_magic_links trigger (BEFORE INSERT): counts the active rows
of the incoming row's user and, when there are at least 3, deletes the oldest
(active_count - 2) of them by created_at so that 2 remain before the insert. -/
def limitActiveMagicLinks (tbl : List MagicLinkRow) (newRow : MagicLinkRow) (now : Int) :
    List MagicLinkRow :=
  if 3 ≤ (activeRows tbl newRow.userID now).length then
    tbl.filter (fun r => decide (¬ r.id ∈ evictedIds tbl newRow.userID now))
  else tbl

/-- INSERT INTO magic_links with the BEFORE INSERT trigger applied first. -/
def insertMagicLink (tbl : List MagicLinkRow) (newRow : MagicLinkRow) (now : Int) :
    List MagicLinkRow :=
  limitActiveMagicLinks tbl newRow now ++ [newRow]

/-- Whether an Except value is an error. -/
def isFailure {ε α : Type} : Except ε α → Bool
  | .error _ => true
  | .ok _ => false

theorem isFailure_of_no_ok {ε α : Type} (x : Except ε α) (h : ∀ v, x ≠ .ok v) :
    isFailure x = true := by
  cases x with
  | error e => rfl
  | ok v => exact absurd rfl (h v)

/-- Everything a successful library-level parse guarantees about the token. -/
theorem jwtParseWithClaims_ok_shape (tok : SignedToken) (secret : String) (now : Int)
    (c : Claims) (h : jwtParseWithClaims tok secret now = .ok c) :
    tok.alg.isHMAC = true ∧ tok.signingKey = secret ∧ c = tok.claims ∧
    (∀ e, tok.claims.exp = some e → now < e) := by
  unfold jwtParseWithClaims at h
  by_cases halg : tok.alg.isHMAC
  · by_cases hkey : tok.signingKey = secret
    · cases hexp : tok.claims.exp with
      | none =>
        simp [halg, hkey, hexp] at h
        exact ⟨halg, hkey, h.symm, fun e he => by simp [hexp] at he⟩
      | some e =>
        by_cases hle : e ≤ now
        · simp [halg, hkey, hexp, hle] at h
        · simp [halg, hkey, hexp, hle] at h
          exact ⟨halg, hkey, h.symm, fun e2 he2 => by
            simp [hexp] at he2
            omega⟩
    · simp [halg, hkey] at h
  · simp [halg] at h

/-- Everything a successful email-verification parse guarantees about the token. -/
theorem parseVerificationToken_ok_shape (tok : SignedToken) (secret : String) (now : Int)
    (s : Int) (h : ParseVerificationToken tok secret now = .ok s) :
    tok.alg.isHMAC = true ∧ tok.signingKey = secret ∧
    tok.claims.purpose = some "email_verification" ∧
    (∃ e, tok.claims.exp = some e ∧ now < e) ∧
    tok.claims.sub = some s := by
  cases hj : jwtParseWithClaims tok secret now with
  | error e => simp [ParseVerificationToken, hj] at h
  | ok claims =>
    obtain ⟨hhmac, hkey, hce, hexp⟩ := jwtParseWithClaims_ok_shape tok secret now claims hj
    simp only [ParseVerificationToken, hj] at h
    cases hpur : claims.purpose with
    | none => simp [hpur] at h
    | some p =>
      by_cases hp : p = "email_verification"
      · cases hexpc : claims.exp with
        | none => simp [hpur, hp, hexpc] at h
        | some e =>
          by_cases hlt : now > e
          · simp [hpur, hp, hexpc, hlt] at h
          · cases hsub : claims.sub with
            | none => simp [hpur, hp, hexpc, hlt, hsub] at h
            | some s2 =>
              simp [hpur, hp, hexpc, hlt, hsub] at h
              refine ⟨hhmac, hkey, ?_, ⟨e, ?_, ?_⟩, ?_⟩
              · rw [← hce, hpur, hp]
              · rw [← hce, hexpc]
              · exact hexp e (by rw [← hce, hexpc])
              · rw [← hce, hsub, h]
      · simp [hpur, hp] at h

/-- Everything a successful 2FA parse guarantees about the token. -/
theorem twofaParseToken_ok_shape (tok : SignedToken) (secret : String) (now : Int)
    (c : TwoFAClaims) (h : twofaParseToken tok secret now = .ok c) :
    tok.alg.isHMAC = true ∧ tok.signingKey = secret ∧
    tok.claims.purpose = some "2fa" ∧
    (∀ e, tok.claims.exp = some e → now < e) ∧
    tok.claims.sub = some c.userID := by
  cases hj : jwtParseWithClaims tok secret now with
  | error e => simp [twofaParseToken, hj] at h
  | ok claims =>
    obtain ⟨hhmac, hkey, hce, hexp⟩ := jwtParseWithClaims_ok_shape tok secret now claims hj
    simp only [twofaParseToken, hj] at h
    cases hpur : claims.purpose with
    | none => simp [hpur] at h
    | some p =>
      by_cases hp : p = "2fa"
      · cases hsub : claims.sub with
        | none => simp [hpur, hp, hsub] at h
        | some uid =>
          cases haid : claims.appID with
          | none => simp [hpur, hp, hsub, haid] at h
          | some aid =>
            cases hsid : claims.sessionID with
            | none => simp [hpur, hp, hsub, haid, hsid] at h
            | some sid =>
              simp [hpur, hp, hsub, haid, hsid] at h
              refine ⟨hhmac, hkey, ?_, hexp, ?_⟩
              · rw [← hce, hpur, hp]
              · rw [← hce, hsub, ← h]
      · simp [hpur, hp] at h

/-- Claim C6: round-trip of the email-verification token codec: for every user
id, positive TTL and secret, parsing the generated token with the same secret
returns the original user id when evaluated before the expiry instant
mintTime + ttl, and fails when evaluated after it. -/
theorem c6_verification_token_roundtrip (userID ttl : Int) (secret : String)
    (mintTime checkTime : Int) (httl : 0 < ttl) :
    (checkTime < mintTime + ttl →
      ParseVerificationToken (generateVerificationToken userID ttl secret mintTime)
        secret checkTime = .ok userID) ∧
    (mintTime + ttl < checkTime →
      isFailure (ParseVerificationToken (generateVerificationToken userID ttl secret mintTime)
        secret checkTime) = true) := by
  constructor
  · intro hbefore
    have h1 : ¬ (mintTime + ttl ≤ checkTime) := by omega
    have h2 : ¬ (checkTime > mintTime + ttl) := by omega
    simp [ParseVerificationToken, generateVerificationToken, jwtParseWithClaims,
      SigAlg.isHMAC, h1, h2]
  · intro hafter
    have h1 : mintTime + ttl ≤ checkTime := by omega
    simp [ParseVerificationToken, generateVerificationToken, jwtParseWithClaims,
      SigAlg.isHMAC, h1, isFailure]

theorem c6_verification_token_roundtrip_witness :
    ParseVerificationToken (generateVerificationToken 7 10 "k" 100) "k" 105 = .ok 7 ∧
    isFailure (ParseVerificationToken (generateVerificationToken 7 10 "k" 100) "k" 111)
      = true :=
  ⟨(c6_verification_token_roundtrip 7 10 "k" 100 105 (by decide)).1 (by decide),
   (c6_verification_token_roundtrip 7 10 "k" 100 111 (by decide)).2 (by decide)⟩

/-- A well-signed 2FA token (right algorithm, right key, purpose 2fa, sub,
app_id and session_id all present) that carries no exp claim at all. -/
def twofaTokenNoExp : SignedToken :=
  ⟨.hs256, ⟨some 1, some "2fa", none, none, some 2, some "sess_5_1"⟩, "k"⟩

/-- Claim C4 counterexample: the 2FA parser accepts a validly signed token that
is missing the exp claim (golang-jwt v5 only validates exp when it is present,
and ParseToken adds no presence check), so it is false that every token
verifier rejects a token missing the exp claim. -/
theorem c4_counterexample_twofa_accepts_missing_exp :
    twofaParseToken twofaTokenNoExp "k" 1000 = .ok ⟨1, 2, "sess_5_1"⟩ := by
  rfl

/-- Claim C4 (amended): both verifiers reject a token signed with a non-HMAC
algorithm, a token whose present exp lies in the past, and a token missing the
sub claim; each verifier rejects a purpose claim different from its own (so 2FA
tokens never validate as email-verification tokens and vice versa); the
email-verification parser also rejects a token missing the exp claim, but the
2FA parser accepts such a token. -/
theorem c4_token_verifier_rejections (tok : SignedToken) (secret : String) (now : Int) :
    (tok.alg.isHMAC = false →
      isFailure (ParseVerificationToken tok secret now) = true ∧
      isFailure (twofaParseToken tok secret now) = true) ∧
    (∀ e, tok.claims.exp = some e → e < now →
      isFailure (ParseVerificationToken tok secret now) = true ∧
      isFailure (twofaParseToken tok secret now) = true) ∧
    (tok.claims.sub = none →
      isFailure (ParseVerificationToken tok secret now) = true ∧
      isFailure (twofaParseToken tok secret now) = true) ∧
    (tok.claims.exp = none →
      isFailure (ParseVerificationToken tok secret now) = true) ∧
    (tok.claims.purpose ≠ some "email_verification" →
      isFailure (ParseVerificationToken tok secret now) = true) ∧
    (tok.claims.purpose ≠ some "2fa" →
      isFailure (twofaParseToken tok secret now) = true) := by
  refine ⟨?_, ?_, ?_, ?_, ?_, ?_⟩
  · intro halg
    constructor
    · apply isFailure_of_no_ok
      intro v hv
      obtain ⟨hh, -, -, -, -⟩ := parseVerificationToken_ok_shape tok secret now v hv
      rw [halg] at hh
      cases hh
    · apply isFailure_of_no_ok
      intro v hv
      obtain ⟨hh, -, -, -, -⟩ := twofaParseToken_ok_shape tok secret now v hv
      rw [halg] at hh
      cases hh
  · intro e he hlt
    constructor
    · apply isFailure_of_no_ok
      intro v hv
      obtain ⟨-, -, -, ⟨e2, he2, hnow⟩, -⟩ := parseVerificationToken_ok_shape tok secret now v hv
      rw [he] at he2
      cases he2
      omega
    · apply isFailure_of_no_ok
      intro v hv
      obtain ⟨-, -, -, hexp, -⟩ := twofaParseToken_ok_shape tok secret now v hv
      have := hexp e he
      omega
  · intro hsub
    constructor
    · apply isFailure_of_no_ok
      intro v hv
      obtain ⟨-, -, -, -, hs⟩ := parseVerificationToken_ok_shape tok secret now v hv
      rw [hsub] at hs
      cases hs
    · apply isFailure_of_no_ok
      intro v hv
      obtain ⟨-, -, -, -, hs⟩ := twofaParseToken_ok_shape tok secret now v hv
      rw [hsub] at hs
      cases hs
  · intro hexpn
    apply isFailure_of_no_ok
    intro v hv
    obtain ⟨-, -, -, ⟨e2, he2, -⟩, -⟩ := parseVerificationToken_ok_shape tok secret now v hv
    rw [hexpn] at he2
    cases he2
  · intro hpv
    apply isFailure_of_no_ok
    intro v hv
    obtain ⟨-, -, hp, -, -⟩ := parseVerificationToken_ok_shape tok secret now v hv
    exact hpv hp
  · intro hpt
    apply isFailure_of_no_ok
    intro v hv
    obtain ⟨-, -, hp, -, -⟩ := twofaParseToken_ok_shape tok secret now v hv
    exact hpt hp

/-- Concrete tokens exercising each rejection of the amended C4 statement. -/
def rsaSignedTok : SignedToken :=
  ⟨.rs256, ⟨some 1, some "2fa", some 5000, none, some 2, some "s"⟩, "k"⟩

def expiredTok : SignedToken :=
  ⟨.hs256, ⟨some 1, some "email_verification", some 50, none, none, none⟩, "k"⟩

def noSubTok : SignedToken :=
  ⟨.hs256, ⟨none, some "email_verification", some 5000, none, some 2, some "s"⟩, "k"⟩

def noExpVerifTok : SignedToken :=
  ⟨.hs256, ⟨some 1, some "email_verification", none, none, none, none⟩, "k"⟩

theorem c4_token_verifier_rejections_witness :
    (isFailure (ParseVerificationToken rsaSignedTok "k" 100) = true ∧
     isFailure (twofaParseToken rsaSignedTok "k" 100) = true) ∧
    (isFailure (ParseVerificationToken expiredTok "k" 100) = true ∧
     isFailure (twofaParseToken expiredTok "k" 100) = true) ∧
    (isFailure (ParseVerificationToken noSubTok "k" 100) = true ∧
     isFailure (twofaParseToken noSubTok "k" 100) = true) ∧
    isFailure (ParseVerificationToken noExpVerifTok "k" 100) = true ∧
    isFailure (ParseVerificationToken (twofaGenerateToken 1 2 5 100 10 "k").1 "k" 100) = true ∧
    isFailure (twofaParseToken (generateVerificationToken 1 10 "k" 100) "k" 100) = true :=
  ⟨(c4_token_verifier_rejections rsaSignedTok "k" 100).1 (by decide),
   (c4_token_verifier_rejections expiredTok "k" 100).2.1 50 (by decide) (by decide),
   (c4_token_verifier_rejections noSubTok "k" 100).2.2.1 (by decide),
   (c4_token_verifier_rejections noExpVerifTok "k" 100).2.2.2.1 (by decide),
   (c4_token_verifier_rejections (twofaGenerateToken 1 2 5 100 10 "k").1 "k" 100).2.2.2.2.1
     (by decide),
   (c4_token_verifier_rejections (generateVerificationToken 1 10 "k" 100) "k" 100).2.2.2.2.2
     (by decide)⟩

/-- A Refresh call whose lookup errors returns InvalidCredentials and changes
nothing. -/
theorem refresh_fails_of_lookup_error (db : DB) (now : Int) (raw newRaw : String)
    (newSalt : Nat) (tokenTTL refreshTTL : Int) (e : StoreError)
    (h : pgGetRefreshToken db now raw = .error e) :
    (Refresh db now raw newRaw newSalt tokenTTL refreshTTL).2 = .error .invalidCredentials := by
  simp [Refresh, refreshAttempt, h]

/-- A Logout call whose lookup errors returns InvalidCredentials. -/
theorem logout_fails_of_lookup_error (db : DB) (now : Int) (raw : String) (e : StoreError)
    (h : pgGetRefreshToken db now raw = .error e) :
    (Logout db now raw).2 = .error .invalidCredentials := by
  simp [Logout, h]

/-- The scan of GetRefreshToken finds nothing when every unexpired row fails the
bcrypt comparison. -/
theorem pgGetRefreshToken_error (db : DB) (now : Int) (raw : String)
    (h : ∀ r ∈ db.refreshTokens, now < r.expiresAt → bcryptCompareOK r.tokenHash raw = false) :
    pgGetRefreshToken db now raw = .error .refreshTokenNotFound := by
  have hnone : (queryUnexpiredRefreshTokens db now).find?
      (fun r => bcryptCompareOK r.tokenHash raw) = none := by
    apply List.find?_eq_none.mpr
    intro r hr
    unfold queryUnexpiredRefreshTokens at hr
    have hmem : r ∈ db.refreshTokens := List.mem_of_mem_filter hr
    have hlt : now < r.expiresAt := by simpa using List.of_mem_filter hr
    simp [h r hmem hlt]
  unfold pgGetRefreshToken
  rw [hnone]

/-- Claim C5: a Refresh or Logout call presenting a raw value whose every
bcrypt-matching stored row has expires_at in the past fails with
InvalidCredentials: expired rows are never matched even though their hash
compares equal to the presented raw value. -/
theorem c5_expired_refresh_never_matched (db : DB) (now : Int) (raw newRaw : String)
    (newSalt : Nat) (tokenTTL refreshTTL : Int)
    (hexp : ∀ r ∈ db.refreshTokens, bcryptCompareOK r.tokenHash raw = true →
      r.expiresAt < now) :
    (Refresh db now raw newRaw newSalt tokenTTL refreshTTL).2 = .error .invalidCredentials ∧
    (Logout db now raw).2 = .error .invalidCredentials := by
  have hget : pgGetRefreshToken db now raw = .error .refreshTokenNotFound := by
    apply pgGetRefreshToken_error
    intro r hr hlt
    by_contra hcmp
    have := hexp r hr (by simpa using hcmp)
    omega
  exact ⟨refresh_fails_of_lookup_error db now raw newRaw newSalt tokenTTL refreshTTL _ hget,
    logout_fails_of_lookup_error db now raw _ hget⟩

theorem c5_expired_refresh_never_matched_witness :
    (Refresh ⟨[], [], [⟨⟨0, "r"⟩, 1, 1, 5⟩], []⟩ 10 "r" "r2" 1 60 3600).2
        = .error .invalidCredentials ∧
    (Logout ⟨[], [], [⟨⟨0, "r"⟩, 1, 1, 5⟩], []⟩ 10 "r").2 = .error .invalidCredentials :=
  c5_expired_refresh_never_matched ⟨[], [], [⟨⟨0, "r"⟩, 1, 1, 5⟩], []⟩ 10 "r" "r2" 1 60 3600
    (by decide)

/-- When a Refresh execution returns success, its final state is the one
produced by the conditional UPDATE on the matched row. -/
theorem refresh_success_state (db : DB) (now : Int) (raw newRaw : String) (newSalt : Nat)
    (tokenTTL refreshTTL : Int) (rt : RefreshTokenRow)
    (hrt : pgGetRefreshToken db now raw = .ok rt)
    (hsucc : ∃ v, (Refresh db now raw newRaw newSalt tokenTTL refreshTTL).2 = .ok v) :
    (Refresh db now raw newRaw newSalt tokenTTL refreshTTL).1 =
      (pgUpdateRefreshTokenExec db rt.userID rt.tokenHash
        (bcryptGenerateFromPassword newRaw newSalt) (now + refreshTTL)).1 := by
  obtain ⟨v, hv⟩ := hsucc
  by_cases h1 : now > rt.expiresAt
  · simp [Refresh, refreshAttempt, hrt, h1] at hv
  · cases hu : pgUserByID db rt.userID with
    | error e => simp [Refresh, refreshAttempt, hrt, h1, hu] at hv
    | ok user =>
      cases ha : pgApp db rt.appID with
      | error e => simp [Refresh, refreshAttempt, hrt, h1, hu, ha] at hv
      | ok app => simp [Refresh, refreshAttempt, hrt, h1, hu, ha]

/-- After the conditional UPDATE that rotates the matched hash, no stored row
compares equal to the old raw value any more (assuming the old raw value
matched only the rotated row and the fresh raw value differs from it). -/
theorem no_match_after_rotation (db : DB) (rt : RefreshTokenRow) (raw newRaw : String)
    (newSalt : Nat) (expiresAt : Int)
    (huniq : ∀ r ∈ db.refreshTokens, bcryptCompareOK r.tokenHash raw = true →
      r.userID = rt.userID ∧ r.tokenHash = rt.tokenHash)
    (hfresh : newRaw ≠ raw) :
    ∀ r ∈ (pgUpdateRefreshTokenExec db rt.userID rt.tokenHash
        (bcryptGenerateFromPassword newRaw newSalt) expiresAt).1.refreshTokens,
      bcryptCompareOK r.tokenHash raw = false := by
  intro r hr
  unfold pgUpdateRefreshTokenExec at hr
  simp only [List.mem_map] at hr
  obtain ⟨r0, hr0, hfr⟩ := hr
  by_cases hhit : r0.userID = rt.userID ∧ r0.tokenHash = rt.tokenHash
  · rw [if_pos (decide_eq_true hhit)] at hfr
    rw [← hfr]
    simp [bcryptCompareOK, bcryptGenerateFromPassword, hfresh]
  · rw [if_neg (fun hc => hhit (of_decide_eq_true hc))] at hfr
    rw [← hfr]
    by_contra hcmp
    exact hhit (huniq r0 hr0 (by simpa using hcmp))

/-- Claim C3: once a Refresh call has succeeded for a raw refresh token
(rotating the stored hash to the hash of a fresh raw value), every later
Refresh or Logout call presenting the old raw value fails with
InvalidCredentials. -/
theorem c3_rotated_token_unusable (db : DB) (now : Int) (raw newRaw : String)
    (newSalt : Nat) (tokenTTL refreshTTL : Int) (rt : RefreshTokenRow)
    (hrt : pgGetRefreshToken db now raw = .ok rt)
    (huniq : ∀ r ∈ db.refreshTokens, bcryptCompareOK r.tokenHash raw = true →
      r.userID = rt.userID ∧ r.tokenHash = rt.tokenHash)
    (hfresh : newRaw ≠ raw)
    (hsucc : ∃ v, (Refresh db now raw newRaw newSalt tokenTTL refreshTTL).2 = .ok v) :
    ∀ laterNow : Int, ∀ laterRaw : String, ∀ laterSalt : Nat, ∀ laterTTL1 laterTTL2 : Int,
      (Refresh (Refresh db now raw newRaw newSalt tokenTTL refreshTTL).1 laterNow raw
        laterRaw laterSalt laterTTL1 laterTTL2).2 = .error .invalidCredentials ∧
      (Logout (Refresh db now raw newRaw newSalt tokenTTL refreshTTL).1 laterNow raw).2
        = .error .invalidCredentials := by
  intro laterNow laterRaw laterSalt laterTTL1 laterTTL2
  have hstate := refresh_success_state db now raw newRaw newSalt tokenTTL refreshTTL rt
    hrt hsucc
  have hnomatch := no_match_after_rotation db rt raw newRaw newSalt (now + refreshTTL)
    huniq hfresh
  have hget : pgGetRefreshToken (Refresh db now raw newRaw newSalt tokenTTL refreshTTL).1
      laterNow raw = .error .refreshTokenNotFound := by
    apply pgGetRefreshToken_error
    intro r hr hlt
    rw [hstate] at hr
    exact hnomatch r hr
  exact ⟨refresh_fails_of_lookup_error _ laterNow raw laterRaw laterSalt laterTTL1 laterTTL2
      _ hget,
    logout_fails_of_lookup_error _ laterNow raw _ hget⟩

theorem c3_rotated_token_unusable_witness :
    (Refresh (Refresh ⟨[⟨1, "a@x", "alice", ⟨7, "pw"⟩, true⟩], [⟨1, "app", "ss"⟩],
        [⟨⟨0, "r"⟩, 1, 1, 50⟩], []⟩ 10 "r" "r2" 1 60 3600).1 20 "r" "r3" 2 60 3600).2
      = .error .invalidCredentials ∧
    (Logout (Refresh ⟨[⟨1, "a@x", "alice", ⟨7, "pw"⟩, true⟩], [⟨1, "app", "ss"⟩],
        [⟨⟨0, "r"⟩, 1, 1, 50⟩], []⟩ 10 "r" "r2" 1 60 3600).1 20 "r").2
      = .error .invalidCredentials :=
  c3_rotated_token_unusable ⟨[⟨1, "a@x", "alice", ⟨7, "pw"⟩, true⟩], [⟨1, "app", "ss"⟩],
      [⟨⟨0, "r"⟩, 1, 1, 50⟩], []⟩ 10 "r" "r2" 1 60 3600 ⟨⟨0, "r"⟩, 1, 1, 50⟩
    (by rfl) (by decide) (by decide)
    ⟨("access:1:1:70", "r2"), by rfl⟩ 20 "r3" 2 60 3600

/-- Initial state for the C1 race: one verified user, one app, one valid
refresh-token row whose bcrypt hash matches the raw value r. -/
def c1InitialDB : DB :=
  ⟨[⟨1, "a@x", "alice", ⟨7, "pw"⟩, true⟩], [⟨1, "app", "ss"⟩],
    [⟨⟨0, "r"⟩, 1, 1, 100⟩], []⟩

/-- Racer A: reads and commits against the initial state. -/
def c1RaceA : DB × Except AuthError (String × String) × Nat :=
  refreshAttempt c1InitialDB c1InitialDB 10 "r" "rA" 1 60 3600

/-- Racer B: read the same initial snapshot before A committed, but its
conditional UPDATE runs after A's commit. -/
def c1RaceB : DB × Except AuthError (String × String) × Nat :=
  refreshAttempt c1InitialDB c1RaceA.1 10 "r" "rB" 2 60 3600

/-- Claim C1 (code bug): in the read-read-commit-commit interleaving of two
Refresh calls racing on the same raw token, the loser B's conditional UPDATE
affects zero rows, yet B still returns success, because UpdateRefreshToken
discards the affected-row count; B's returned refresh token was never
persisted, so the service hands out two successes where the spec requires at
most one. -/
theorem c1_refresh_race_double_success :
    (c1RaceA.2.1 = .ok ("access:1:1:70", "rA") ∧ c1RaceA.2.2 = 1) ∧
    (c1RaceB.2.1 = .ok ("access:1:1:70", "rB") ∧ c1RaceB.2.2 = 0) ∧
    pgGetRefreshToken c1RaceB.1 20 "rB" = .error .refreshTokenNotFound :=
  ⟨⟨rfl, rfl⟩, ⟨rfl, rfl⟩, rfl⟩

/-- Claim C8: registering with an email or username that already exists fails
with the UserAlreadyExists error, raised from the unique-constraint violation
of the INSERT itself, and leaves the users table unchanged. -/
theorem c8_register_duplicate (db : DB) (newId : Int) (email username pass : String)
    (salt : Nat)
    (hdup : ∃ u ∈ db.users, u.email = email ∨ u.username = username) :
    (RegisterNewUser db newId email username pass salt).2 = .error .userExists ∧
    (RegisterNewUser db newId email username pass salt).1 = db := by
  have hany : db.users.any (fun u => u.email == email || u.username == username) = true := by
    obtain ⟨u, hu, hcase⟩ := hdup
    apply List.any_eq_true.mpr
    refine ⟨u, hu, ?_⟩
    cases hcase with
    | inl h => simp [h]
    | inr h => simp [h]
  constructor <;> simp [RegisterNewUser, pgSaveUser, pgInsertUser, hany]

theorem c8_register_duplicate_witness :
    (RegisterNewUser ⟨[⟨1, "a@x", "alice", ⟨0, "p"⟩, false⟩], [], [], []⟩ 2 "a@x" "bob"
      "pw2" 5).2 = .error .userExists ∧
    (RegisterNewUser ⟨[⟨1, "a@x", "alice", ⟨0, "p"⟩, false⟩], [], [], []⟩ 2 "a@x" "bob"
      "pw2" 5).1 = ⟨[⟨1, "a@x", "alice", ⟨0, "p"⟩, false⟩], [], [], []⟩ :=
  c8_register_duplicate ⟨[⟨1, "a@x", "alice", ⟨0, "p"⟩, false⟩], [], [], []⟩ 2 "a@x" "bob"
    "pw2" 5 ⟨⟨1, "a@x", "alice", ⟨0, "p"⟩, false⟩, by decide, by decide⟩

/-- Claim C9: every single-row lookup of the credential store translates the
raw driver no-rows condition into its distinguished not-found error at the
store boundary: ErrUserNotFound, ErrAppNotFound, ErrRefreshTokenNotFound, and
the distinguished magic-link not-found signal. -/
theorem c9_not_found_sentinels (db : DB) (email : String) (id appID : Int)
    (tokenHash raw : String) (now : Int)
    (h1 : ∀ u ∈ db.users, u.email ≠ email)
    (h2 : ∀ u ∈ db.users, u.id ≠ id)
    (h3 : ∀ a ∈ db.apps, a.id ≠ appID)
    (h4 : ∀ m ∈ db.magicLinks, m.tokenHash ≠ tokenHash)
    (h5 : ∀ r ∈ db.refreshTokens, bcryptCompareOK r.tokenHash raw = false) :
    pgUser db email = .error .userNotFound ∧
    pgUserByID db id = .error .userNotFound ∧
    pgCheckIfUserVerified db email = .error .userNotFound ∧
    pgApp db appID = .error .appNotFound ∧
    pgGetRefreshToken db now raw = .error .refreshTokenNotFound ∧
    pgMagicLinkByTokenHash db.magicLinks tokenHash
      = .error (.magicLinkNotFound "storage.postgres.MagicLinkByTokenHash") := by
  have hu : db.users.find? (fun u => u.email == email) = none :=
    List.find?_eq_none.mpr (fun u hu => by simpa using h1 u hu)
  have hi : db.users.find? (fun u => u.id == id) = none :=
    List.find?_eq_none.mpr (fun u hu => by simpa using h2 u hu)
  have ha : db.apps.find? (fun a => a.id == appID) = none :=
    List.find?_eq_none.mpr (fun a hap => by simpa using h3 a hap)
  have hm : db.magicLinks.find? (fun m => m.tokenHash == tokenHash) = none :=
    List.find?_eq_none.mpr (fun m hmm => by simpa using h4 m hmm)
  refine ⟨?_, ?_, ?_, ?_, ?_, ?_⟩
  · simp [pgUser, queryRowUserByEmail, hu]
  · simp [pgUserByID, queryRowUserByID, hi]
  · simp [pgCheckIfUserVerified, queryRowUserByEmail, hu]
  · simp [pgApp, queryRowApp, ha]
  · exact pgGetRefreshToken_error db now raw (fun r hr _ => h5 r hr)
  · simp [pgMagicLinkByTokenHash, queryRowMagicLinkByHash, hm]

/-- Fixed state for the C9 witness: one row in each table, none matching the
looked-up keys. -/
def c9DB : DB :=
  ⟨[⟨1, "b@x", "bob", ⟨0, "p"⟩, false⟩], [⟨2, "ap", "s"⟩], [⟨⟨0, "q"⟩, 1, 2, 100⟩],
    [⟨1, 1, 2, "h1", "s1", "ip", "ua", false, none, 100, 5⟩]⟩

theorem c9_not_found_sentinels_witness :
    pgUser c9DB "a@x" = .error .userNotFound ∧
    pgUserByID c9DB 3 = .error .userNotFound ∧
    pgCheckIfUserVerified c9DB "a@x" = .error .userNotFound ∧
    pgApp c9DB 9 = .error .appNotFound ∧
    pgGetRefreshToken c9DB 10 "r" = .error .refreshTokenNotFound ∧
    pgMagicLinkByTokenHash c9DB.magicLinks "h2"
      = .error (.magicLinkNotFound "storage.postgres.MagicLinkByTokenHash") :=
  c9_not_found_sentinels c9DB "a@x" 3 9 "h2" "r" 10 (by decide) (by decide) (by decide)
    (by decide) (by decide)

theorem map_eq_self_of_forall {α : Type} (l : List α) (f : α → α)
    (h : ∀ a ∈ l, f a = a) : l.map f = l := by
  induction l with
  | nil => rfl
  | cons a t ih => simp [h a (by simp), ih (fun b hb => h b (by simp [hb]))]

/-- Claim C10 (implicit): VerifyUser with a valid verification token whose
subject user id matches no users row returns success, because the
SetEmailVerified UPDATE affects zero rows and no error is surfaced; the state
is unchanged, so the caller cannot distinguish this case from verifying an
existing user. -/
theorem c10_verify_nonexistent_user_succeeds (db : DB) (tok : SignedToken)
    (secret : String) (now : Int) (uid : Int)
    (hparse : ParseVerificationToken tok secret now = .ok uid)
    (habsent : ∀ u ∈ db.users, u.id ≠ uid) :
    (VerifyUser db tok secret now).2 = .ok () ∧ (VerifyUser db tok secret now).1 = db := by
  obtain ⟨us, aps, rts, mls⟩ := db
  constructor
  · simp [VerifyUser, hparse]
  · simp only [VerifyUser, hparse, pgSetEmailVerified]
    simp
    exact map_eq_self_of_forall _ _ (fun u hu => by rw [if_neg (habsent u hu)])

theorem c10_verify_nonexistent_user_succeeds_witness :
    (VerifyUser ⟨[⟨1, "b@x", "bob", ⟨0, "p"⟩, false⟩], [], [], []⟩
      (generateVerificationToken 2 10 "k" 100) "k" 105).2 = .ok () ∧
    (VerifyUser ⟨[⟨1, "b@x", "bob", ⟨0, "p"⟩, false⟩], [], [], []⟩
      (generateVerificationToken 2 10 "k" 100) "k" 105).1
      = ⟨[⟨1, "b@x", "bob", ⟨0, "p"⟩, false⟩], [], [], []⟩ :=
  c10_verify_nonexistent_user_succeeds ⟨[⟨1, "b@x", "bob", ⟨0, "p"⟩, false⟩], [], [], []⟩
    (generateVerificationToken 2 10 "k" 100) "k" 105 2 (by rfl) (by decide)

/-- A linearized sequence of Redis consumption attempts at the given instants,
threading the store state and collecting each attempt's set-if-absent verdict. -/
def runRedisAttempts (st : List RedisEntry) (tokenHash : String) (ttl : Int) :
    List Int → List RedisEntry × List Bool
  | [] => (st, [])
  | t :: ts =>
    let r := redisMarkMagicLinkAsUsed st tokenHash t ttl
    let rest := runRedisAttempts r.1 tokenHash ttl ts
    (rest.1, r.2 :: rest.2)

/-- While the used-key entry is live, every further attempt reports false and
leaves the store unchanged. -/
theorem runRedisAttempts_all_false (tokenHash : String) (ttl : Int) (e : RedisEntry)
    (ts : List Int) : ∀ st : List RedisEntry, e ∈ st →
    e.key = "2fa:used:" ++ tokenHash → (∀ t ∈ ts, t < e.expiresAt) →
    runRedisAttempts st tokenHash ttl ts = (st, ts.map (fun _ => false)) := by
  induction ts with
  | nil =>
    intro st hmem hkey hts
    rfl
  | cons t ts ih =>
    intro st hmem hkey hts
    have hlive : redisKeyLive st ("2fa:used:" ++ tokenHash) t = true := by
      apply List.any_eq_true.mpr
      exact ⟨e, hmem, by simp [hkey, hts t (by simp)]⟩
    simp [runRedisAttempts, redisMarkMagicLinkAsUsed, redisSetNX, hlive,
      ih st hmem hkey (fun t2 ht2 => hts t2 (by simp [ht2]))]

/-- Redis half of the exactly-once property: starting from a store in which no
entry for the used-key is still live at the first attempt, the first attempt
returns true and all later attempts (happening before the first attempt's TTL
expires) return false. -/
theorem redis_consume_first_wins (st : List RedisEntry) (tokenHash : String) (ttl : Int)
    (t1 : Int) (rest : List Int)
    (hfree : ∀ e ∈ st, e.key = "2fa:used:" ++ tokenHash → e.expiresAt ≤ t1)
    (hrest : ∀ t ∈ rest, t1 ≤ t ∧ t < t1 + ttl) :
    (runRedisAttempts st tokenHash ttl (t1 :: rest)).2 =
      true :: rest.map (fun _ => false) := by
  cases hlv : redisKeyLive st ("2fa:used:" ++ tokenHash) t1 with
  | true =>
    exfalso
    obtain ⟨e, he, hcond⟩ := List.any_eq_true.mp hlv
    simp only [Bool.and_eq_true, beq_iff_eq, decide_eq_true_eq] at hcond
    have := hfree e he hcond.1
    omega
  | false =>
    have hstep : redisMarkMagicLinkAsUsed st tokenHash t1 ttl =
        (⟨"2fa:used:" ++ tokenHash, "used", t1 + ttl⟩ :: st, true) := by
      simp [redisMarkMagicLinkAsUsed, redisSetNX, hlv]
    have hrec := runRedisAttempts_all_false tokenHash ttl
      ⟨"2fa:used:" ++ tokenHash, "used", t1 + ttl⟩ rest
      (⟨"2fa:used:" ++ tokenHash, "used", t1 + ttl⟩ :: st) (by simp) rfl
      (fun t ht => by have := hrest t ht; simp only []; omega)
    simp [runRedisAttempts, hstep, hrec]

/-- A linearized sequence of durable conditional updates marking the magic-link
row used, collecting each attempt's outcome. -/
def runPgMarkAttempts (tbl : List MagicLinkRow) (id : Int) :
    List Int → List MagicLinkRow × List (Except StoreError Unit)
  | [] => (tbl, [])
  | t :: ts =>
    let r := pgMarkMagicLinkAsUsed tbl t id
    let rest := runPgMarkAttempts r.1 id ts
    (rest.1, r.2 :: rest.2)

/-- Once every row with the target id is used, the conditional update affects
zero rows, errors, and leaves the table unchanged. -/
theorem pgMark_preserves_used (tbl : List MagicLinkRow) (now id : Int)
    (h : ∀ r ∈ tbl, r.id = id → r.used = true) :
    pgMarkMagicLinkAsUsed tbl now id =
      (tbl, .error (.magicLinkUsedOrMissing "storage.postgres.MarkMagicLinkAsUsed")) := by
  have hfil : tbl.filter (fun r => decide (r.id = id ∧ r.used = false)) = [] := by
    apply List.filter_eq_nil_iff.mpr
    intro r hr
    simp only [decide_eq_true_eq, not_and]
    intro hid hused
    rw [h r hr hid] at hused
    cases hused
  have hmap : tbl.map
      (fun r => if decide (r.id = id ∧ r.used = false) then markUsedRow now r else r) = tbl :=
    map_eq_self_of_forall _ _ (fun r hr => by
      rw [if_neg]
      intro hc
      obtain ⟨hid, hused⟩ := of_decide_eq_true hc
      rw [h r hr hid] at hused
      cases hused)
  simp only [pgMarkMagicLinkAsUsed]
  rw [hfil]
  simp only [List.length_nil]
  rw [if_pos trivial, hmap]

/-- The first durable conditional update on an unused row succeeds, and
afterwards every row with the target id is used. -/
theorem pgMark_first_success (tbl : List MagicLinkRow) (t1 id : Int) (r0 : MagicLinkRow)
    (hmem : r0 ∈ tbl) (hid : r0.id = id) (hunused : r0.used = false) :
    (pgMarkMagicLinkAsUsed tbl t1 id).2 = .ok () ∧
    (∀ r ∈ (pgMarkMagicLinkAsUsed tbl t1 id).1, r.id = id → r.used = true) := by
  have hne : (tbl.filter (fun r => decide (r.id = id ∧ r.used = false))).length ≠ 0 := by
    have hmf : r0 ∈ tbl.filter (fun r => decide (r.id = id ∧ r.used = false)) :=
      List.mem_filter.mpr ⟨hmem, by simp [hid, hunused]⟩
    intro h0
    rw [List.length_eq_zero] at h0
    rw [h0] at hmf
    cases hmf
  constructor
  · simp only [pgMarkMagicLinkAsUsed]
    rw [if_neg hne]
  · intro r hr hrid
    have hr2 : r ∈ tbl.map
        (fun rr => if decide (rr.id = id ∧ rr.used = false) then markUsedRow t1 rr else rr) := by
      simp only [pgMarkMagicLinkAsUsed] at hr
      rw [if_neg hne] at hr
      exact hr
    obtain ⟨r1, hr1, heq⟩ := List.mem_map.mp hr2
    by_cases hhit : r1.id = id ∧ r1.used = false
    · rw [if_pos (decide_eq_true hhit)] at heq
      rw [← heq]
      rfl
    · rw [if_neg (fun hc => hhit (of_decide_eq_true hc))] at heq
      rw [← heq] at hrid ⊢
      cases hu : r1.used with
      | true => rfl
      | false => exact absurd ⟨hrid, hu⟩ hhit

/-- Durable half of the exactly-once property: with an unused row for the id in
the table, the first conditional update succeeds and every later one errors. -/
theorem pg_mark_used_once (tbl : List MagicLinkRow) (id : Int) (r0 : MagicLinkRow)
    (hmem : r0 ∈ tbl) (hid : r0.id = id) (hunused : r0.used = false)
    (t1 : Int) (rest : List Int) :
    (runPgMarkAttempts tbl id (t1 :: rest)).2 =
      .ok () :: List.replicate rest.length
        (.error (.magicLinkUsedOrMissing "storage.postgres.MarkMagicLinkAsUsed")) := by
  obtain ⟨hok, hinv⟩ := pgMark_first_success tbl t1 id r0 hmem hid hunused
  have hrest : ∀ ts : List Int, ∀ tbl2 : List MagicLinkRow,
      (∀ r ∈ tbl2, r.id = id → r.used = true) →
      runPgMarkAttempts tbl2 id ts =
        (tbl2, List.replicate ts.length
          (.error (.magicLinkUsedOrMissing "storage.postgres.MarkMagicLinkAsUsed"))) := by
    intro ts
    induction ts with
    | nil =>
      intro tbl2 h2
      rfl
    | cons t ts ih =>
      intro tbl2 h2
      simp [runPgMarkAttempts, pgMark_preserves_used tbl2 t id h2, ih tbl2 h2,
        List.replicate_succ]
  simp [runPgMarkAttempts, hok, hrest rest _ hinv]

/-- Claim C2: magic-link consumption is exactly-once per token hash: in any
linearization of concurrent redemption attempts, the first Redis set-if-absent
write of the used key returns true and every other returns false; and the
durable conditional update (guarded by used = false and checked via the
affected-row count) succeeds exactly on the first attempt and errors on every
subsequent one. -/
theorem c2_magic_link_consume_exactly_once
    (st : List RedisEntry) (tokenHash : String) (ttl : Int) (t1 : Int) (rest : List Int)
    (hfree : ∀ e ∈ st, e.key = "2fa:used:" ++ tokenHash → e.expiresAt ≤ t1)
    (hrest : ∀ t ∈ rest, t1 ≤ t ∧ t < t1 + ttl)
    (tbl : List MagicLinkRow) (id : Int) (r0 : MagicLinkRow)
    (hmem : r0 ∈ tbl) (hid : r0.id = id) (hunused : r0.used = false)
    (u1 : Int) (urest : List Int) :
    (runRedisAttempts st tokenHash ttl (t1 :: rest)).2 =
      true :: rest.map (fun _ => false) ∧
    (runPgMarkAttempts tbl id (u1 :: urest)).2 =
      .ok () :: List.replicate urest.length
        (.error (.magicLinkUsedOrMissing "storage.postgres.MarkMagicLinkAsUsed")) :=
  ⟨redis_consume_first_wins st tokenHash ttl t1 rest hfree hrest,
   pg_mark_used_once tbl id r0 hmem hid hunused u1 urest⟩

theorem c2_magic_link_consume_exactly_once_witness :
    (runRedisAttempts [] "h" 60 [10, 11, 12]).2 = [true, false, false] ∧
    (runPgMarkAttempts [⟨1, 1, 2, "h", "s", "ip", "ua", false, none, 100, 5⟩] 1
      [10, 11, 12]).2 =
      [.ok (), .error (.magicLinkUsedOrMissing "storage.postgres.MarkMagicLinkAsUsed"),
       .error (.magicLinkUsedOrMissing "storage.postgres.MarkMagicLinkAsUsed")] :=
  c2_magic_link_consume_exactly_once [] "h" 60 10 [11, 12] (by simp)
    (by decide) [⟨1, 1, 2, "h", "s", "ip", "ua", false, none, 100, 5⟩] 1
    ⟨1, 1, 2, "h", "s", "ip", "ua", false, none, 100, 5⟩ (by simp) (by decide) (by decide)
    10 [11, 12]

/-- Filtering a concatenation by "key not among the first block's keys" keeps
exactly the second block when the keys are nodup. -/
theorem length_filter_not_mem_append {α β : Type} [DecidableEq β] (f : α → β)
    (T D : List α) (hnodup : ((T ++ D).map f).Nodup) :
    ((T ++ D).filter (fun r => decide (¬ f r ∈ T.map f))).length = D.length := by
  rw [List.filter_append]
  have hT : T.filter (fun r => decide (¬ f r ∈ T.map f)) = [] := by
    apply List.filter_eq_nil_iff.mpr
    intro a ha
    simp [List.mem_map_of_mem f ha]
  have hD : D.filter (fun r => decide (¬ f r ∈ T.map f)) = D := by
    apply List.filter_eq_self.mpr
    intro a ha
    rw [List.map_append] at hnodup
    have hdisj := List.disjoint_of_nodup_append hnodup
    simp only [decide_eq_true_eq]
    intro hmem
    exact hdisj hmem (List.mem_map_of_mem f ha)
  rw [hT, hD, List.nil_append]

/-- Count part of the cap invariant: with at least 3 active rows for the user
and an active incoming row, exactly 3 active rows remain after the insert. -/
theorem magicLink_cap_count (tbl : List MagicLinkRow) (newRow : MagicLinkRow) (now : Int)
    (hnodup : (tbl.map MagicLinkRow.id).Nodup)
    (hcnt : 3 ≤ (activeRows tbl newRow.userID now).length)
    (hnewActive : magicLinkActive newRow.userID now newRow = true) :
    (activeRows (insertMagicLink tbl newRow now) newRow.userID now).length = 3 := by
  have hnodupA : ((activeRows tbl newRow.userID now).map MagicLinkRow.id).Nodup :=
    List.Nodup.sublist ((List.filter_sublist tbl).map MagicLinkRow.id) hnodup
  have hperm : List.Perm ((activeRows tbl newRow.userID now).mergeSort createdLE)
      (activeRows tbl newRow.userID now) := List.mergeSort_perm _ _
  have hnodupS : (((activeRows tbl newRow.userID now).mergeSort createdLE).map
      MagicLinkRow.id).Nodup := ((hperm.map _).nodup_iff).mpr hnodupA
  have hkey := length_filter_not_mem_append MagicLinkRow.id
    (((activeRows tbl newRow.userID now).mergeSort createdLE).take
      ((activeRows tbl newRow.userID now).length - 2))
    (((activeRows tbl newRow.userID now).mergeSort createdLE).drop
      ((activeRows tbl newRow.userID now).length - 2))
    (by rw [List.take_append_drop]; exact hnodupS)
  rw [List.take_append_drop] at hkey
  have hevict : evictedIds tbl newRow.userID now =
      (((activeRows tbl newRow.userID now).mergeSort createdLE).take
        ((activeRows tbl newRow.userID now).length - 2)).map MagicLinkRow.id := rfl
  rw [← hevict] at hkey
  have hAq : ((activeRows tbl newRow.userID now).filter
      (fun r => decide (¬ r.id ∈ evictedIds tbl newRow.userID now))).length =
      (activeRows tbl newRow.userID now).length -
        ((activeRows tbl newRow.userID now).length - 2) := by
    rw [← (hperm.filter _).length_eq, hkey, List.length_drop, hperm.length_eq]
  have hAq2 : (tbl.filter (fun a => magicLinkActive newRow.userID now a &&
      decide (¬ a.id ∈ evictedIds tbl newRow.userID now))).length =
      (activeRows tbl newRow.userID now).length -
        ((activeRows tbl newRow.userID now).length - 2) := by
    rw [← hAq]
    unfold activeRows
    rw [List.filter_filter]
    exact congrArg List.length (List.filter_congr (fun a ha => Bool.and_comm _ _))
  have hlim : limitActiveMagicLinks tbl newRow now =
      tbl.filter (fun r => decide (¬ r.id ∈ evictedIds tbl newRow.userID now)) := by
    simp only [limitActiveMagicLinks]
    rw [if_pos hcnt]
  rw [insertMagicLink, hlim]
  unfold activeRows
  rw [List.filter_append, List.filter_filter]
  have hnew : [newRow].filter (magicLinkActive newRow.userID now) = [newRow] := by
    simp [hnewActive]
  rw [hnew, List.length_append, hAq2]
  have h1 : ([newRow] : List MagicLinkRow).length = 1 := rfl
  rw [h1]
  omega

/-- Eviction part of the cap invariant: with exactly 3 active rows, the
strictly oldest of them is deleted by the trigger and absent from the result. -/
theorem magicLink_cap_evicts_oldest (tbl : List MagicLinkRow) (newRow : MagicLinkRow)
    (now : Int) (m : MagicLinkRow)
    (hfresh : ¬ newRow.id ∈ tbl.map MagicLinkRow.id)
    (hcnt3 : (activeRows tbl newRow.userID now).length = 3)
    (hm : m ∈ activeRows tbl newRow.userID now)
    (hold : ∀ r ∈ activeRows tbl newRow.userID now, r ≠ m → m.createdAt < r.createdAt) :
    ¬ m ∈ insertMagicLink tbl newRow now := by
  have hcnt : 3 ≤ (activeRows tbl newRow.userID now).length := by omega
  have hperm : List.Perm ((activeRows tbl newRow.userID now).mergeSort createdLE)
      (activeRows tbl newRow.userID now) := List.mergeSort_perm _ _
  have hlenS : ((activeRows tbl newRow.userID now).mergeSort createdLE).length = 3 := by
    rw [hperm.length_eq, hcnt3]
  obtain ⟨a, b, c, hS⟩ := List.length_eq_three.mp hlenS
  have hsorted : ((activeRows tbl newRow.userID now).mergeSort createdLE).Pairwise
      (fun a b => createdLE a b = true) :=
    @List.sorted_mergeSort MagicLinkRow createdLE
      (fun x y z hxy hyz => by
        have h1 : x.createdAt ≤ y.createdAt := of_decide_eq_true hxy
        have h2 : y.createdAt ≤ z.createdAt := of_decide_eq_true hyz
        exact decide_eq_true (show x.createdAt ≤ z.createdAt by omega))
      (fun x y => by
        rw [Bool.or_eq_true]
        rcases Int.le_total x.createdAt y.createdAt with h | h
        · exact Or.inl (decide_eq_true h)
        · exact Or.inr (decide_eq_true h))
      (activeRows tbl newRow.userID now)
  rw [hS] at hsorted
  obtain ⟨hhead, -⟩ := List.pairwise_cons.mp hsorted
  have haA : a ∈ activeRows tbl newRow.userID now :=
    hperm.mem_iff.mp (by rw [hS]; simp)
  have hma : a = m := by
    have hmS : m ∈ (activeRows tbl newRow.userID now).mergeSort createdLE :=
      hperm.mem_iff.mpr hm
    rw [hS] at hmS
    simp only [List.mem_cons, List.not_mem_nil, or_false] at hmS
    by_cases heq : a = m
    · exact heq
    · exfalso
      have hlt : m.createdAt < a.createdAt := hold a haA heq
      rcases hmS with h1 | h2 | h3
      · exact heq h1.symm
      · have hab : createdLE a b = true := hhead b (by simp)
        simp only [createdLE, decide_eq_true_eq] at hab
        rw [← h2] at hab
        omega
      · have hac : createdLE a c = true := hhead c (by simp)
        simp only [createdLE, decide_eq_true_eq] at hac
        rw [← h3] at hac
        omega
  have hvict : evictedIds tbl newRow.userID now = [m.id] := by
    unfold evictedIds
    rw [hcnt3, hS]
    simp [hma]
  intro hmem
  unfold insertMagicLink limitActiveMagicLinks at hmem
  rw [if_pos hcnt, List.mem_append] at hmem
  rcases hmem with hin | hin
  · have := List.of_mem_filter hin
    simp [hvict] at this
  · simp only [List.mem_singleton] at hin
    apply hfresh
    rw [← hin]
    have hmtbl : m ∈ tbl := List.mem_of_mem_filter hm
    exact List.mem_map_of_mem MagicLinkRow.id hmtbl

/-- Claim C7: the magic_links table keeps at most 3 unused, unexpired rows per
user: an insert for a user who already has at least 3 active rows evicts the
oldest active rows so that exactly 3 active rows remain after the insert; in
particular, with exactly 3 active rows the strictly oldest one is evicted. -/
theorem c7_magic_link_cap (tbl : List MagicLinkRow) (newRow : MagicLinkRow) (now : Int)
    (hnodup : (tbl.map MagicLinkRow.id).Nodup)
    (hfresh : ¬ newRow.id ∈ tbl.map MagicLinkRow.id)
    (hcnt : 3 ≤ (activeRows tbl newRow.userID now).length)
    (hnewActive : magicLinkActive newRow.userID now newRow = true) :
    (activeRows (insertMagicLink tbl newRow now) newRow.userID now).length = 3 ∧
    (∀ m ∈ activeRows tbl newRow.userID now,
      (activeRows tbl newRow.userID now).length = 3 →
      (∀ r ∈ activeRows tbl newRow.userID now, r ≠ m → m.createdAt < r.createdAt) →
      ¬ m ∈ insertMagicLink tbl newRow now) :=
  ⟨magicLink_cap_count tbl newRow now hnodup hcnt hnewActive,
   fun m hm h3 hold => magicLink_cap_evicts_oldest tbl newRow now m hfresh h3 hm hold⟩

/-- Three active magic links of user 1, ids 1..3 created at instants 1..3. -/
def c7Tbl : List MagicLinkRow :=
  [⟨1, 1, 1, "h1", "s1", "ip", "ua", false, none, 100, 1⟩,
   ⟨2, 1, 1, "h2", "s2", "ip", "ua", false, none, 100, 2⟩,
   ⟨3, 1, 1, "h3", "s3", "ip", "ua", false, none, 100, 3⟩]

def c7NewRow : MagicLinkRow :=
  ⟨4, 1, 1, "h4", "s4", "ip", "ua", false, none, 100, 4⟩

theorem c7_magic_link_cap_witness :
    (activeRows (insertMagicLink c7Tbl c7NewRow 10) 1 10).length = 3 ∧
    ¬ (⟨1, 1, 1, "h1", "s1", "ip", "ua", false, none, 100, 1⟩ : MagicLinkRow)
      ∈ insertMagicLink c7Tbl c7NewRow 10 :=
  ⟨(c7_magic_link_cap c7Tbl c7NewRow 10 (by decide) (by decide) (by decide) (by decide)).1,
   (c7_magic_link_cap c7Tbl c7NewRow 10 (by decide) (by decide) (by decide) (by decide)).2
     ⟨1, 1, 1, "h1", "s1", "ip", "ua", false, none, 100, 1⟩ (by decide) (by decide)
     (by decide)⟩

end AuthService
